import Mathlib

/-!
Shallow embedding of the order/food/restaurant/post request handlers of the
arzaq backend (`app/api/routes/{orders,foods,restaurants,posts}.py`) over an
explicit database state, together with proofs about them.

Conventions of the embedding:
* SQLAlchemy `Float` columns are modelled as `ℚ` (exact arithmetic on the
  decimal literals appearing in requests).
* `Integer` columns and Python `int` request fields are modelled as `Int`
  (Pydantic's plain `int` admits negative values).
* `DateTime` values are modelled as `Int` timestamps; `datetime.utcnow()`
  becomes an explicit `now : Int` argument of each handler.
* A table is a `List` of rows; `db.query(T).filter(...).first()` becomes
  `List.find?`.  In-place ORM mutation of a row becomes rebuilding the list
  with the row replaced (SQLAlchemy's identity map makes a later query in
  the same request observe the pending mutation, which the replaced list
  models).
* An `HTTPException` becomes an `ApiError` value carried by `Except`.
-/

namespace Arzaq

/-- `OrderStatus` enum from `app/models/order.py`. -/
inductive OrderStatus where
  | pending
  | confirmed
  | ready
  | completed
  | cancelled
deriving DecidableEq, Repr

/-- `RestaurantStatus` enum from `app/models/restaurant.py`. -/
inductive RestaurantStatus where
  | pending
  | approved
  | rejected
deriving DecidableEq, Repr

/-- `Food` row (`app/models/food.py`), restricted to the columns the
handlers under verification read or write. -/
structure Food where
  id : Nat
  restaurant_id : Nat
  name : String
  description : Option String
  price : ℚ
  old_price : Option ℚ
  quantity : Int
  expires_at : Int
deriving DecidableEq, Repr

/-- `Restaurant` row (`app/models/restaurant.py`), restricted to the columns
the handlers under verification read or write. -/
structure Restaurant where
  id : Nat
  owner_id : Nat
  name : String
  address : String
  status : RestaurantStatus
  rejection_reason : Option String
  approved_at : Option Int
deriving DecidableEq, Repr

/-- `Order` row (`app/models/order.py`). -/
structure Order where
  id : Nat
  customer_id : Nat
  restaurant_id : Nat
  status : OrderStatus
  total_amount : ℚ
  pickup_time : Int
  completed_at : Option Int
deriving DecidableEq, Repr

/-- `OrderItem` row (`app/models/order.py`). -/
structure OrderItem where
  order_id : Nat
  food_id : Nat
  quantity : Int
  price : ℚ
deriving DecidableEq, Repr

/-- `Post` row (`app/models/post.py`), restricted to the columns `toggle_like`
reads. -/
structure Post where
  id : Nat
  author_id : Nat
deriving DecidableEq, Repr

/-- `PostLike` row (`app/models/post.py`). -/
structure PostLike where
  post_id : Nat
  user_id : Nat
deriving DecidableEq, Repr

/-- The database state: one list per table, plus the autoincrement counter
for ids handed out by `db.flush()` / `db.commit()`. -/
structure DB where
  restaurants : List Restaurant
  foods : List Food
  orders : List Order
  order_items : List OrderItem
  posts : List Post
  post_likes : List PostLike
  nextOrderId : Nat
  nextFoodId : Nat
deriving DecidableEq, Repr

/-- The error outcomes of a handler (`HTTPException` status families used by
the routes under verification). -/
inductive ApiError where
  | notFound (detail : String)
  | badRequest (detail : String)
  | forbidden (detail : String)
  | internalError (detail : String)
deriving DecidableEq, Repr

/-- Numeric HTTP status code of an error. -/
def ApiError.statusCode : ApiError → Nat
  | .notFound _ => 404
  | .badRequest _ => 400
  | .forbidden _ => 403
  | .internalError _ => 500

/-- One line of an order request (`OrderItemCreate` in
`app/schemas/order.py`). -/
structure OrderItemCreate where
  food_id : Nat
  quantity : Int
deriving DecidableEq, Repr

/-- Order request body (`OrderCreate` in `app/schemas/order.py`). -/
structure OrderCreate where
  restaurant_id : Nat
  pickup_time : Int
  items : List OrderItemCreate
deriving DecidableEq, Repr

/-- Data collected for one line before the order row exists
(`order_items_data` in `create_order`). -/
structure OrderItemData where
  food_id : Nat
  quantity : Int
  price : ℚ
deriving DecidableEq, Repr

/-- Replace the quantity of the food row with the given id
(`food.quantity -= item.quantity` seen through the identity map). -/
def updateFoodQty (foods : List Food) (fid : Nat) (newQty : Int) : List Food :=
  foods.map fun f => if f.id = fid then { f with quantity := newQty } else f

/-- The validation/accumulation loop of `create_order`
(`app/api/routes/orders.py` lines 42-79): for each requested line, look the
food up in the session, run the four checks in source order, accumulate the
line subtotal and snapshot data, and decrement the food's quantity in the
session before moving to the next line. -/
def processItems (restaurantId : Nat) (now : Int) :
    List OrderItemCreate → List Food → ℚ → List OrderItemData →
    Except ApiError (List Food × ℚ × List OrderItemData)
  | [], foods, total, acc => .ok (foods, total, acc)
  | item :: rest, foods, total, acc =>
    match foods.find? (fun f => f.id = item.food_id) with
    | none => .error (.notFound s!"Food item {item.food_id} not found")
    | some food =>
      if food.restaurant_id ≠ restaurantId then
        .error (.badRequest s!"Food item {item.food_id} does not belong to this restaurant")
      else if food.quantity < item.quantity then
        .error (.badRequest s!"Not enough quantity for {food.name}. Available: {food.quantity}")
      else if food.expires_at < now then
        .error (.badRequest s!"{food.name} has expired")
      else
        processItems restaurantId now rest
          (updateFoodQty foods food.id (food.quantity - item.quantity))
          (total + food.price * item.quantity)
          (acc ++ [⟨food.id, item.quantity, food.price⟩])

/-- `create_order` (`app/api/routes/orders.py` lines 19-104): verify the
restaurant exists, run the per-line loop, then create the order row (status
PENDING, computed total) and one order-item row per line, and commit. -/
def create_order (db : DB) (customer_id : Nat) (req : OrderCreate) (now : Int) :
    Except ApiError (DB × Order) :=
  match db.restaurants.find? (fun r => r.id = req.restaurant_id) with
  | none => .error (.notFound "Restaurant not found")
  | some _ =>
    match processItems req.restaurant_id now req.items db.foods 0 [] with
    | .error e => .error e
    | .ok (foods', total, itemsData) =>
      let oid := db.nextOrderId
      let newOrder : Order :=
        { id := oid, customer_id := customer_id, restaurant_id := req.restaurant_id,
          status := .pending, total_amount := total, pickup_time := req.pickup_time,
          completed_at := none }
      let newItems := itemsData.map fun d =>
        OrderItem.mk oid d.food_id d.quantity d.price
      let db' : DB :=
        { db with
          foods := foods'
          orders := db.orders ++ [newOrder]
          order_items := db.order_items ++ newItems
          nextOrderId := oid + 1 }
      .ok (db', newOrder)

/-- Modelled from the spec: `app/db/session.py` (the `get_db` dependency that
owns the request-scoped session) is not under `src/`.  Per the spec, the
order workflow's mutations are one atomic unit and "any precondition failure
aborts before any mutation", i.e. when the handler raises, the session's
uncommitted changes are discarded and the durable state is the pre-call
state; only the single `db.commit()` at the end of the handler publishes the
new state.  This wrapper pairs the handler's outcome with the durable
database state so produced. -/
def create_order_endpoint (db : DB) (customer_id : Nat) (req : OrderCreate)
    (now : Int) : DB × Except ApiError Order :=
  match create_order db customer_id req now with
  | .error e => (db, .error e)
  | .ok (db', o) => (db', .ok o)

/-- The order row as rewritten by `update_order_status`: the status is set
unconditionally, and `completed_at` is stamped with the current time exactly
when the new status is COMPLETED. -/
def withStatus (o : Order) (st : OrderStatus) (now : Int) : Order :=
  { o with
    status := st
    completed_at := if st = OrderStatus.completed then some now else o.completed_at }

/-- `update_order_status` (`app/api/routes/orders.py` lines 180-219): find
the order, check the calling user owns the order's restaurant, set the
status unconditionally, and stamp `completed_at` only when the new status is
COMPLETED. -/
def update_order_status (db : DB) (current_user_id : Nat) (order_id : Nat)
    (newStatus : OrderStatus) (now : Int) : Except ApiError (DB × Order) :=
  match db.orders.find? (fun o => o.id = order_id) with
  | none => .error (.notFound "Order not found")
  | some order =>
    match db.restaurants.find?
        (fun r => r.owner_id = current_user_id ∧ r.id = order.restaurant_id) with
    | none => .error (.forbidden "You can only update orders for your restaurant")
    | some _ =>
      let order' : Order := withStatus order newStatus now
      let db' : DB :=
        { db with orders := db.orders.map fun o => if o.id = order_id then order' else o }
      .ok (db', order')

/-- Response body of `GET /orders/impact/stats` (`ImpactStats` in
`app/schemas/order.py`). -/
structure ImpactStats where
  meals_rescued : Int
  co2_saved : ℚ
  meals_goal : Int
  co2_goal : ℚ
deriving DecidableEq, Repr

/-- The join condition of the `get_impact_stats` aggregate: the item's order
row (unique by primary key) belongs to the customer and is COMPLETED. -/
def completedFor (orders : List Order) (customer_id : Nat) (it : OrderItem) : Bool :=
  match orders.find? (fun o => o.id = it.order_id) with
  | some o => o.customer_id = customer_id ∧ o.status = OrderStatus.completed
  | none => false

/-- The SQL aggregate of `get_impact_stats`: sum of `OrderItem.quantity`
joined to `Order` filtered on customer and COMPLETED status. -/
def completedItemsTotal (db : DB) (customer_id : Nat) : Int :=
  ((db.order_items.filter (completedFor db.orders customer_id)).map
    fun it => it.quantity).sum

/-- Python's `round(x, 1)` on the values reachable here: round `10*x` to the
nearest integer and divide by 10.  Python rounds halves to even, but the
only inputs this code ever rounds are `n * 0.18`; `10 * n * 0.18 = 9*n/5`
is half-integral only if `18*n ≡ 5 [MOD 10]`, impossible since `18*n` is
even, so no tie ever arises and the tie-breaking mode is irrelevant. -/
def roundTo1 (q : ℚ) : ℚ := (round (q * 10) : ℤ) / 10

/-- `get_impact_stats` (`app/api/routes/orders.py` lines 222-249): a pure
read computing the completed-items total, CO2 estimate (0.18 per meal,
rounded to 1 decimal) and the fixed goal constants.  The handler performs no
mutation and no commit, so it takes the state and returns only the stats. -/
def get_impact_stats (db : DB) (customer_id : Nat) : ImpactStats :=
  let total := completedItemsTotal db customer_id
  { meals_rescued := total
    co2_saved := roundTo1 ((total : ℚ) * (18 / 100))
    meals_goal := 30
    co2_goal := 10 }

/-- Food-creation request body (`FoodCreate` in `app/schemas/food.py`),
restricted to the fields the handler validates or stores into columns the
verification tracks. -/
structure FoodCreate where
  restaurant_id : Nat
  name : String
  description : Option String
  price : ℚ
  old_price : Option ℚ
  quantity : Int
  expires_at : Int
deriving DecidableEq, Repr

/-- `create_food` (`app/api/routes/foods.py` lines 24-96): ownership check,
approval check, expiration check (`expires_at <= now` rejected), price
positivity (`price <= 0 or old_price <= 0`; Python's `or` short-circuits, and
comparing a `None` old_price raises a `TypeError` that the outer handler
turns into a 500), and discount check (`price >= old_price` rejected). -/
def create_food (db : DB) (current_user_id : Nat) (fd : FoodCreate) (now : Int) :
    Except ApiError (DB × Food) :=
  match db.restaurants.find?
      (fun r => r.id = fd.restaurant_id ∧ r.owner_id = current_user_id) with
  | none => .error (.forbidden "You can only create food items for your own restaurant")
  | some r =>
    if r.status ≠ RestaurantStatus.approved then
      .error (.badRequest "Restaurant must be approved to create food items")
    else if fd.expires_at ≤ now then
      .error (.badRequest "Expiration date must be in the future")
    else if fd.price ≤ 0 then
      .error (.badRequest "Prices must be greater than zero")
    else
      match fd.old_price with
      | none => .error (.internalError "An unexpected error occurred")
      | some op =>
        if op ≤ 0 then
          .error (.badRequest "Prices must be greater than zero")
        else if fd.price ≥ op then
          .error (.badRequest "Discounted price must be less than original price")
        else
          let newFood : Food :=
            { id := db.nextFoodId, restaurant_id := fd.restaurant_id, name := fd.name,
              description := fd.description, price := fd.price, old_price := fd.old_price,
              quantity := fd.quantity, expires_at := fd.expires_at }
          .ok ({ db with foods := db.foods ++ [newFood], nextFoodId := db.nextFoodId + 1 },
               newFood)

/-- Food-update request body (`FoodUpdate` in `app/schemas/food.py`): every
field optional; `dict(exclude_unset=True)` means only provided fields are
applied, which `Option` models. -/
structure FoodUpdate where
  name : Option String := none
  description : Option String := none
  price : Option ℚ := none
  old_price : Option ℚ := none
  quantity : Option Int := none
  expires_at : Option Int := none
deriving DecidableEq, Repr

/-- The `setattr` loop of `update_food`: overwrite exactly the provided
fields. -/
def applyFoodUpdate (f : Food) (u : FoodUpdate) : Food :=
  { f with
    name := u.name.getD f.name
    description := match u.description with | some d => some d | none => f.description
    price := u.price.getD f.price
    old_price := match u.old_price with | some p => some p | none => f.old_price
    quantity := u.quantity.getD f.quantity
    expires_at := u.expires_at.getD f.expires_at }

/-- `update_food` (`app/api/routes/foods.py` lines 210-248): find the food,
check ownership, then apply every provided field with no further
validation and commit. -/
def update_food (db : DB) (current_user_id : Nat) (food_id : Nat) (u : FoodUpdate) :
    Except ApiError (DB × Food) :=
  match db.foods.find? (fun f => f.id = food_id) with
  | none => .error (.notFound "Food item not found")
  | some food =>
    match db.restaurants.find?
        (fun r => r.id = food.restaurant_id ∧ r.owner_id = current_user_id) with
    | none => .error (.forbidden "You can only update your own food items")
    | some _ =>
      let food' := applyFoodUpdate food u
      let db' : DB :=
        { db with foods := db.foods.map fun g => if g.id = food_id then food' else g }
      .ok (db', food')

/-- `approve_restaurant` (`app/api/routes/restaurants.py` lines 240-269):
admins may approve only a PENDING restaurant; approval sets status APPROVED
and stamps `approved_at`. -/
def approve_restaurant (db : DB) (restaurant_id : Nat) (now : Int) :
    Except ApiError (DB × Restaurant) :=
  match db.restaurants.find? (fun r => r.id = restaurant_id) with
  | none => .error (.notFound "Restaurant not found")
  | some r =>
    if r.status ≠ RestaurantStatus.pending then
      .error (.badRequest "Restaurant is not in pending status")
    else
      let r' : Restaurant :=
        { r with status := RestaurantStatus.approved, approved_at := some now }
      let db' : DB :=
        { db with restaurants := db.restaurants.map fun s => if s.id = restaurant_id then r' else s }
      .ok (db', r')

/-- `reject_restaurant` (`app/api/routes/restaurants.py` lines 271-301):
admins may reject only a PENDING restaurant; rejection sets status REJECTED
and records the supplied reason. -/
def reject_restaurant (db : DB) (restaurant_id : Nat) (reason : String) :
    Except ApiError (DB × Restaurant) :=
  match db.restaurants.find? (fun r => r.id = restaurant_id) with
  | none => .error (.notFound "Restaurant not found")
  | some r =>
    if r.status ≠ RestaurantStatus.pending then
      .error (.badRequest "Restaurant is not in pending status")
    else
      let r' : Restaurant :=
        { r with status := RestaurantStatus.rejected, rejection_reason := some reason }
      let db' : DB :=
        { db with restaurants := db.restaurants.map fun s => if s.id = restaurant_id then r' else s }
      .ok (db', r')

/-- Whether `sub` occurs as a contiguous sublist of the second argument. -/
def listContainsSub (sub : List Char) : List Char → Bool
  | [] => sub.isEmpty
  | c :: rest => sub.isPrefixOf (c :: rest) || listContainsSub sub rest

/-- SQL `ILIKE '%term%'`: case-insensitive substring match. -/
def ilikeContains (hay : String) (needle : String) : Bool :=
  listContainsSub needle.toLower.toList hay.toLower.toList

/-- The search filter of `get_all_foods`: `name ILIKE term OR description
ILIKE term`; a NULL description never matches. -/
def foodMatchesSearch (f : Food) (s : String) : Bool :=
  ilikeContains f.name s ||
    (match f.description with
     | some d => ilikeContains d s
     | none => false)

/-- The optional restaurant filter of `get_all_foods` (`if restaurant_id:`
in Python, so both `None` and the falsy `0` skip the filter). -/
def filterByRestaurant (l : List (Food × Restaurant)) (restaurant_id : Option Nat) :
    List (Food × Restaurant) :=
  match restaurant_id with
  | some rid => if rid ≠ 0 then l.filter (fun p => p.1.restaurant_id = rid) else l
  | none => l

/-- The optional search filter of `get_all_foods` (`if search:` in Python, so
both `None` and the falsy empty string skip the filter). -/
def filterBySearch (l : List (Food × Restaurant)) (search : Option String) :
    List (Food × Restaurant) :=
  match search with
  | some s => if s ≠ "" then l.filter (fun p => foodMatchesSearch p.1 s) else l
  | none => l

/-- `get_all_foods` (`app/api/routes/foods.py` lines 99-166): inner-join
foods to restaurants, apply the optional restaurant filter (skipped for
`None` and for `0`, both falsy in Python) and the optional search filter
(skipped for `None` and the empty string), keep only unexpired
(`expires_at > now`), in-stock (`quantity > 0`) foods of APPROVED
restaurants, then apply OFFSET and LIMIT, returning each food with its
restaurant's name and address. -/
def get_all_foods (db : DB) (restaurant_id : Option Nat) (search : Option String)
    (limit : Nat) (offset : Nat) (now : Int) : List (Food × String × String) :=
  let joined : List (Food × Restaurant) :=
    db.foods.filterMap fun f =>
      (db.restaurants.find? (fun r => r.id = f.restaurant_id)).map fun r => (f, r)
  let q3 : List (Food × Restaurant) :=
    (filterBySearch (filterByRestaurant joined restaurant_id) search).filter fun p =>
      p.1.expires_at > now ∧ p.1.quantity > 0 ∧ p.2.status = RestaurantStatus.approved
  ((q3.drop offset).take limit).map fun p => (p.1, p.2.name, p.2.address)

/-- Response body of `POST /posts/{id}/like` (`LikeResponse` in
`app/schemas/post.py`). -/
structure LikeResponse where
  success : Bool
  is_liked : Bool
  likes_count : Nat
deriving DecidableEq, Repr

/-- The row filter of the existing-like query in `toggle_like`:
`PostLike.post_id == post_id, PostLike.user_id == current_user_id`. -/
def likePred (post_id current_user_id : Nat) : PostLike → Bool :=
  fun l => l.post_id = post_id ∧ l.user_id = current_user_id

/-- `toggle_like` (`app/api/routes/posts.py` lines 206-250): find the post,
look for an existing (post, user) like; delete it if present, insert one if
absent, then count the post's likes. -/
def toggle_like (db : DB) (post_id : Nat) (current_user_id : Nat) :
    Except ApiError (DB × LikeResponse) :=
  match db.posts.find? (fun p => p.id = post_id) with
  | none => .error (.notFound "Post not found")
  | some _ =>
    match db.post_likes.find? (likePred post_id current_user_id) with
    | some _ =>
      let likes' := db.post_likes.eraseP (likePred post_id current_user_id)
      let db' : DB := { db with post_likes := likes' }
      .ok (db', { success := true, is_liked := false,
                  likes_count := (likes'.filter fun l => l.post_id = post_id).length })
    | none =>
      let likes' := db.post_likes ++ [⟨post_id, current_user_id⟩]
      let db' : DB := { db with post_likes := likes' }
      .ok (db', { success := true, is_liked := true,
                  likes_count := (likes'.filter fun l => l.post_id = post_id).length })

/-! ### Derived accessors used to state properties about `create_order` -/

/-- Listed price of the food with id `fid` (0 when absent). -/
def priceOf (foods : List Food) (fid : Nat) : ℚ :=
  ((foods.find? fun f => f.id = fid).map Food.price).getD 0

/-- Stored quantity of the food with id `fid` (0 when absent). -/
def qtyOf (foods : List Food) (fid : Nat) : Int :=
  ((foods.find? fun f => f.id = fid).map Food.quantity).getD 0

/-- Total quantity requested for food `fid` across all lines of a request. -/
def reqTotal (items : List OrderItemCreate) (fid : Nat) : Int :=
  ((items.filter fun it => it.food_id = fid).map OrderItemCreate.quantity).sum

/-- The sequential per-line validation of `create_order` in isolation: `true`
iff every line passes its lookup, ownership, quantity and expiry checks, each
line evaluated against the session state left by its predecessors. -/
def itemsOk (restaurantId : Nat) (now : Int) :
    List OrderItemCreate → List Food → Bool
  | [], _ => true
  | item :: rest, foods =>
    match foods.find? (fun f => f.id = item.food_id) with
    | none => false
    | some food =>
      if food.restaurant_id ≠ restaurantId then false
      else if food.quantity < item.quantity then false
      else if food.expires_at < now then false
      else itemsOk restaurantId now rest
        (updateFoodQty foods food.id (food.quantity - item.quantity))

/-! ### Lemmas about `updateFoodQty` -/

theorem find?_updateFoodQty (foods : List Food) (fid : Nat) (q : Int) (fid' : Nat) :
    (updateFoodQty foods fid q).find? (fun f => f.id = fid') =
      (foods.find? fun f => f.id = fid').map
        (fun f => if f.id = fid then { f with quantity := q } else f) := by
  unfold updateFoodQty
  rw [List.find?_map]
  have hp : ((fun f : Food => decide (f.id = fid')) ∘
      fun f : Food => if f.id = fid then { f with quantity := q } else f) =
      fun f : Food => decide (f.id = fid') := by
    funext f
    by_cases h : f.id = fid <;> simp [h, Function.comp]
  rw [hp]

theorem priceOf_updateFoodQty (foods : List Food) (fid : Nat) (q : Int) (fid' : Nat) :
    priceOf (updateFoodQty foods fid q) fid' = priceOf foods fid' := by
  unfold priceOf
  rw [find?_updateFoodQty]
  cases h : foods.find? (fun f => f.id = fid') with
  | none => simp
  | some f => by_cases hf : f.id = fid <;> simp [hf]

theorem qtyOf_updateFoodQty_self (foods : List Food) (fid : Nat) (q : Int) (f : Food)
    (h : foods.find? (fun f => f.id = fid) = some f) :
    qtyOf (updateFoodQty foods fid q) fid = q := by
  have hid : f.id = fid := by simpa using List.find?_some h
  unfold qtyOf
  rw [find?_updateFoodQty, h]
  simp [hid]

theorem qtyOf_updateFoodQty_other (foods : List Food) (fid : Nat) (q : Int) (fid' : Nat)
    (h : fid' ≠ fid) :
    qtyOf (updateFoodQty foods fid q) fid' = qtyOf foods fid' := by
  unfold qtyOf
  rw [find?_updateFoodQty]
  cases hf : foods.find? (fun f => f.id = fid') with
  | none => simp
  | some f =>
    have hid : f.id = fid' := by simpa using List.find?_some hf
    simp [hid, h]

theorem find?_updateFoodQty_expiry (foods : List Food) (fid : Nat) (q : Int) (fid' : Nat)
    (f' : Food) (h : (updateFoodQty foods fid q).find? (fun f => f.id = fid') = some f') :
    ∃ f, foods.find? (fun f => f.id = fid') = some f ∧ f.expires_at = f'.expires_at := by
  rw [find?_updateFoodQty] at h
  cases hf : foods.find? (fun f => f.id = fid') with
  | none => rw [hf] at h; simp at h
  | some f =>
    rw [hf] at h
    refine ⟨f, rfl, ?_⟩
    simp only [Option.map_some'] at h
    by_cases hid : f.id = fid <;> simp [hid] at h <;> simp [← h]

/-! ### Lemmas about the `create_order` loop -/

theorem processItems_isOk_iff (rid : Nat) (now : Int) (items : List OrderItemCreate)
    (foods : List Food) (total : ℚ) (acc : List OrderItemData) :
    (processItems rid now items foods total acc).isOk = itemsOk rid now items foods := by
  induction items generalizing foods total acc with
  | nil => rfl
  | cons item rest ih =>
    unfold processItems itemsOk
    cases hf : foods.find? (fun f => f.id = item.food_id) with
    | none => simp [Except.isOk, Except.toBool]
    | some food =>
      simp only []
      split_ifs with h1 h2 h3
      · simp [Except.isOk, Except.toBool]
      · simp [Except.isOk, Except.toBool]
      · simp [Except.isOk, Except.toBool]
      · exact ih _ _ _

theorem reqTotal_cons (item : OrderItemCreate) (rest : List OrderItemCreate) (fid : Nat) :
    reqTotal (item :: rest) fid =
      (if item.food_id = fid then item.quantity else 0) + reqTotal rest fid := by
  unfold reqTotal
  rw [List.filter_cons]
  by_cases h : item.food_id = fid <;> simp [h]

theorem reqTotal_eq_zero (items : List OrderItemCreate) (fid : Nat)
    (h : fid ∉ items.map (fun it => it.food_id)) : reqTotal items fid = 0 := by
  unfold reqTotal
  have : items.filter (fun it => it.food_id = fid) = [] := by
    rw [List.filter_eq_nil_iff]
    intro it hit
    simp only [decide_eq_true_eq]
    intro heq
    exact h (by simpa [heq] using List.mem_map_of_mem (fun it => it.food_id) hit)
  rw [this]
  rfl

theorem processItems_ok_total (rid : Nat) (now : Int) (items : List OrderItemCreate)
    (foods : List Food) (total : ℚ) (acc : List OrderItemData)
    (foods' : List Food) (total' : ℚ) (acc' : List OrderItemData)
    (h : processItems rid now items foods total acc = .ok (foods', total', acc')) :
    total' = total + (items.map fun it => priceOf foods it.food_id * (it.quantity : ℚ)).sum ∧
    acc' = acc ++ items.map (fun it =>
      OrderItemData.mk it.food_id it.quantity (priceOf foods it.food_id)) ∧
    ∀ fid, priceOf foods' fid = priceOf foods fid := by
  induction items generalizing foods total acc with
  | nil =>
    unfold processItems at h
    injection h with h
    injection h with h1 h
    injection h with h2 h3
    subst h1; subst h2; subst h3
    simp
  | cons item rest ih =>
    unfold processItems at h
    cases hf : foods.find? (fun f => f.id = item.food_id) with
    | none => rw [hf] at h; exact absurd h (by simp)
    | some food =>
      rw [hf] at h
      simp only [] at h
      split_ifs at h with h1 h2 h3
      have hid : food.id = item.food_id := by simpa using List.find?_some hf
      have hprice : priceOf foods item.food_id = food.price := by
        unfold priceOf; rw [hf]; rfl
      obtain ⟨ht, ha, hp⟩ := ih _ _ _ h
      have hpinv : ∀ fid, priceOf (updateFoodQty foods food.id (food.quantity - item.quantity)) fid
          = priceOf foods fid := fun fid => priceOf_updateFoodQty foods food.id _ fid
      refine ⟨?_, ?_, fun fid => (hp fid).trans (hpinv fid)⟩
      · rw [ht]
        have : (rest.map fun it =>
            priceOf (updateFoodQty foods food.id (food.quantity - item.quantity)) it.food_id
              * (it.quantity : ℚ)) =
            rest.map fun it => priceOf foods it.food_id * (it.quantity : ℚ) :=
          List.map_congr_left fun it _ => by rw [hpinv]
        rw [this, List.map_cons, List.sum_cons, hprice]
        ring
      · rw [ha]
        have : (rest.map fun it => OrderItemData.mk it.food_id it.quantity
            (priceOf (updateFoodQty foods food.id (food.quantity - item.quantity)) it.food_id)) =
            rest.map fun it => OrderItemData.mk it.food_id it.quantity (priceOf foods it.food_id) :=
          List.map_congr_left fun it _ => by rw [hpinv]
        rw [this, List.map_cons, hprice, hid]
        simp

theorem processItems_ok_qty (rid : Nat) (now : Int) (items : List OrderItemCreate)
    (foods : List Food) (total : ℚ) (acc : List OrderItemData)
    (foods' : List Food) (total' : ℚ) (acc' : List OrderItemData)
    (h : processItems rid now items foods total acc = .ok (foods', total', acc')) :
    ∀ fid, qtyOf foods' fid = qtyOf foods fid - reqTotal items fid := by
  induction items generalizing foods total acc with
  | nil =>
    unfold processItems at h
    injection h with h
    injection h with h1 h
    subst h1
    intro fid
    simp [reqTotal]
  | cons item rest ih =>
    unfold processItems at h
    cases hf : foods.find? (fun f => f.id = item.food_id) with
    | none => rw [hf] at h; exact absurd h (by simp)
    | some food =>
      rw [hf] at h
      simp only [] at h
      split_ifs at h with h1 h2 h3
      intro fid
      have hid : food.id = item.food_id := by simpa using List.find?_some hf
      have hq : qtyOf foods item.food_id = food.quantity := by
        unfold qtyOf; rw [hf]; rfl
      rw [ih _ _ _ h, reqTotal_cons]
      by_cases hcase : fid = item.food_id
      · subst hcase
        rw [← hid] at hf hq ⊢
        rw [qtyOf_updateFoodQty_self foods food.id _ food hf, hq]
        simp
        ring
      · rw [qtyOf_updateFoodQty_other foods food.id _ fid (by rw [hid]; exact hcase)]
        have : ¬ item.food_id = fid := fun hh => hcase hh.symm
        simp [this]

theorem processItems_ok_nonneg (rid : Nat) (now : Int) (items : List OrderItemCreate)
    (foods : List Food) (total : ℚ) (acc : List OrderItemData)
    (foods' : List Food) (total' : ℚ) (acc' : List OrderItemData)
    (h : processItems rid now items foods total acc = .ok (foods', total', acc')) :
    ∀ fid ∈ items.map (fun it => it.food_id), 0 ≤ qtyOf foods' fid := by
  induction items generalizing foods total acc with
  | nil => intro fid hfid; simp at hfid
  | cons item rest ih =>
    unfold processItems at h
    cases hf : foods.find? (fun f => f.id = item.food_id) with
    | none => rw [hf] at h; exact absurd h (by simp)
    | some food =>
      rw [hf] at h
      simp only [] at h
      split_ifs at h with h1 h2 h3
      intro fid hfid
      have hid : food.id = item.food_id := by simpa using List.find?_some hf
      by_cases hmem : fid ∈ rest.map (fun it => it.food_id)
      · exact ih _ _ _ h fid hmem
      · have hhead : fid = item.food_id := by
          rcases (by simpa using hfid : fid = item.food_id ∨
            fid ∈ rest.map (fun it => it.food_id)) with hh | hh
          · exact hh
          · exact absurd hh hmem
        subst hhead
        rw [processItems_ok_qty rid now rest _ _ _ _ _ _ h item.food_id,
          reqTotal_eq_zero rest item.food_id hmem, ← hid,
          qtyOf_updateFoodQty_self foods food.id _ food (by rw [hid]; exact hf)]
        omega

theorem processItems_ok_expiry (rid : Nat) (now : Int) (items : List OrderItemCreate)
    (foods : List Food) (total : ℚ) (acc : List OrderItemData)
    (foods' : List Food) (total' : ℚ) (acc' : List OrderItemData)
    (h : processItems rid now items foods total acc = .ok (foods', total', acc')) :
    ∀ it ∈ items, ∃ f, foods.find? (fun x => x.id = it.food_id) = some f ∧
      now ≤ f.expires_at := by
  induction items generalizing foods total acc with
  | nil => intro it hit; simp at hit
  | cons item rest ih =>
    unfold processItems at h
    cases hf : foods.find? (fun f => f.id = item.food_id) with
    | none => rw [hf] at h; exact absurd h (by simp)
    | some food =>
      rw [hf] at h
      simp only [] at h
      split_ifs at h with h1 h2 h3
      intro it hit
      rcases (by simpa using hit : it = item ∨ it ∈ rest) with hh | hh
      · subst hh
        exact ⟨food, hf, by omega⟩
      · obtain ⟨f', hfind', hexp'⟩ := ih _ _ _ h it hh
        obtain ⟨f, hfind, hexp⟩ :=
          find?_updateFoodQty_expiry foods food.id (food.quantity - item.quantity)
            it.food_id f' hfind'
        exact ⟨f, hfind, by omega⟩

/-! ### Concrete example data used by witnesses and counterexamples -/

/-- An approved restaurant owned by user 5. -/
def exRestaurant : Restaurant := ⟨1, 5, "Bereke", "Abay 1", .approved, none, none⟩

/-- The spec's scenario food: price 500, old price 800, quantity 10,
expiring at time 200. -/
def exFood : Food := ⟨1, 1, "Plov", none, 500, some 800, 10, 200⟩

/-- A database holding only the scenario restaurant and food. -/
def exDB : DB := ⟨[exRestaurant], [exFood], [], [], [], [], 1, 2⟩

/-! ### C1 -/

/-- C1: an order-placement request on which some precondition fails (the
restaurant lookup, or any line's sequential food-lookup / ownership /
quantity / expiry check) has no partial effect: the durable state equals the
pre-call state (in particular all food quantities are unchanged and no order
or line-item row exists), and the outcome is an error. -/
theorem create_order_no_partial_effect (db : DB) (customer_id : Nat) (req : OrderCreate)
    (now : Int)
    (h : db.restaurants.find? (fun r => r.id = req.restaurant_id) = none ∨
         itemsOk req.restaurant_id now req.items db.foods = false) :
    (create_order_endpoint db customer_id req now).1 = db ∧
    ∃ e, (create_order_endpoint db customer_id req now).2 = Except.error e := by
  unfold create_order_endpoint create_order
  rcases h with h | h
  · rw [h]
    exact ⟨rfl, _, rfl⟩
  · cases hr : db.restaurants.find? (fun r => r.id = req.restaurant_id) with
    | none => exact ⟨rfl, _, rfl⟩
    | some r =>
      simp only []
      cases hp : processItems req.restaurant_id now req.items db.foods 0 [] with
      | error e => exact ⟨rfl, e, rfl⟩
      | ok v =>
        have hok := processItems_isOk_iff req.restaurant_id now req.items db.foods 0 []
        rw [hp, h] at hok
        simp [Except.isOk, Except.toBool] at hok

/-- Witness for C1: the spec's failing scenario (quantity 11 requested from
stock 10) leaves the database unchanged and errors. -/
theorem create_order_no_partial_effect_witness :
    (create_order_endpoint exDB 9 ⟨1, 50, [⟨1, 11⟩]⟩ 100).1 = exDB ∧
    ∃ e, (create_order_endpoint exDB 9 ⟨1, 50, [⟨1, 11⟩]⟩ 100).2 = Except.error e :=
  create_order_no_partial_effect exDB 9 ⟨1, 50, [⟨1, 11⟩]⟩ 100 (Or.inr (by decide))

/-! ### C2 -/

/-- C2: on success, the created order's total equals the sum over the
request's lines of (the food's listed price at call time) × (requested
quantity), and the appended line items snapshot exactly that price, the
requested quantity and the new order's id. -/
theorem create_order_total_amount (db : DB) (customer_id : Nat) (req : OrderCreate)
    (now : Int) (db' : DB) (o : Order)
    (h : create_order db customer_id req now = .ok (db', o)) :
    o.total_amount =
      (req.items.map fun it => priceOf db.foods it.food_id * (it.quantity : ℚ)).sum ∧
    db'.order_items = db.order_items ++ req.items.map (fun it =>
      OrderItem.mk db.nextOrderId it.food_id it.quantity (priceOf db.foods it.food_id)) ∧
    db'.orders = db.orders ++ [o] ∧ o.status = OrderStatus.pending := by
  unfold create_order at h
  cases hr : db.restaurants.find? (fun r => r.id = req.restaurant_id) with
  | none => rw [hr] at h; exact absurd h (by simp)
  | some r =>
    rw [hr] at h
    simp only [] at h
    cases hp : processItems req.restaurant_id now req.items db.foods 0 [] with
    | error e => rw [hp] at h; exact absurd h (by simp)
    | ok v =>
      obtain ⟨foods', total', acc'⟩ := v
      rw [hp] at h
      simp only [Except.ok.injEq, Prod.mk.injEq] at h
      obtain ⟨hdb, ho⟩ := h
      obtain ⟨ht, ha, _⟩ := processItems_ok_total _ _ _ _ _ _ _ _ _ hp
      subst hdb
      refine ⟨?_, ?_, ?_, ?_⟩
      · rw [← ho]
        simpa using ht
      · simp only [ha, List.nil_append, List.map_map]
        rfl
      · rw [← ho]
      · rw [← ho]

/-- Order produced in the spec's success scenario: quantity 3 at price 500
gives total 1500. -/
def exOrderC2 : Order := ⟨1, 9, 1, .pending, 1500, 50, none⟩

/-- Database state after the spec's success scenario: food quantity 7, one
order, one line item at snapshot price 500. -/
def exDBC2 : DB :=
  ⟨[exRestaurant], [{ exFood with quantity := 7 }], [exOrderC2], [⟨1, 1, 3, 500⟩],
   [], [], 2, 2⟩

/-- Witness for C2: the spec's scenario (order 3 of the 500-price food)
instantiates the theorem; the concrete order has `total_amount = 1500`. -/
theorem create_order_total_amount_witness :
    exOrderC2.total_amount =
      ((⟨1, 50, [⟨1, 3⟩]⟩ : OrderCreate).items.map fun it =>
        priceOf exDB.foods it.food_id * (it.quantity : ℚ)).sum ∧
    exDBC2.order_items = exDB.order_items ++
      ((⟨1, 50, [⟨1, 3⟩]⟩ : OrderCreate).items.map fun it =>
        OrderItem.mk exDB.nextOrderId it.food_id it.quantity (priceOf exDB.foods it.food_id)) ∧
    exDBC2.orders = exDB.orders ++ [exOrderC2] ∧ exOrderC2.status = OrderStatus.pending :=
  create_order_total_amount exDB 9 ⟨1, 50, [⟨1, 3⟩]⟩ 100 exDBC2 exOrderC2 (by
    simp [create_order, processItems, updateFoodQty, exDB, exFood, exRestaurant, exDBC2,
      exOrderC2]
    norm_num)

/-! ### C3 -/

/-- C3: on success, every food referenced by the order ends with stored
quantity equal to its pre-call quantity minus the total quantity requested
for it across all lines, and that quantity is not negative — duplicate lines
for the same food included. -/
theorem create_order_decrements_quantity (db : DB) (customer_id : Nat) (req : OrderCreate)
    (now : Int) (db' : DB) (o : Order)
    (h : create_order db customer_id req now = .ok (db', o)) :
    ∀ fid ∈ req.items.map (fun it => it.food_id),
      qtyOf db'.foods fid = qtyOf db.foods fid - reqTotal req.items fid ∧
      0 ≤ qtyOf db'.foods fid := by
  unfold create_order at h
  cases hr : db.restaurants.find? (fun r => r.id = req.restaurant_id) with
  | none => rw [hr] at h; exact absurd h (by simp)
  | some r =>
    rw [hr] at h
    simp only [] at h
    cases hp : processItems req.restaurant_id now req.items db.foods 0 [] with
    | error e => rw [hp] at h; exact absurd h (by simp)
    | ok v =>
      obtain ⟨foods', total', acc'⟩ := v
      rw [hp] at h
      simp only [Except.ok.injEq, Prod.mk.injEq] at h
      obtain ⟨hdb, ho⟩ := h
      subst hdb
      intro fid hfid
      exact ⟨processItems_ok_qty _ _ _ _ _ _ _ _ _ hp fid,
        processItems_ok_nonneg _ _ _ _ _ _ _ _ _ hp fid hfid⟩

/-- Database state after ordering the same food on two lines (3 + 4):
quantity 10 becomes 3. -/
def exDBC3 : DB :=
  ⟨[exRestaurant], [{ exFood with quantity := 3 }], [⟨1, 9, 1, .pending, 3500, 50, none⟩],
   [⟨1, 1, 3, 500⟩, ⟨1, 1, 4, 500⟩], [], [], 2, 2⟩

/-- Witness for C3: a request naming food 1 on two lines (3 and 4 units)
decrements its quantity from 10 to 3 = 10 − (3 + 4), non-negative. -/
theorem create_order_decrements_quantity_witness :
    qtyOf exDBC3.foods 1 =
      qtyOf exDB.foods 1 - reqTotal (⟨1, 50, [⟨1, 3⟩, ⟨1, 4⟩]⟩ : OrderCreate).items 1 ∧
    0 ≤ qtyOf exDBC3.foods 1 :=
  create_order_decrements_quantity exDB 9 ⟨1, 50, [⟨1, 3⟩, ⟨1, 4⟩]⟩ 100 exDBC3
    ⟨1, 9, 1, .pending, 3500, 50, none⟩ (by
    simp [create_order, processItems, updateFoodQty, exDB, exFood, exRestaurant, exDBC3]
    norm_num) 1 (by decide)

/-! ### C4 -/

/-- The scenario food expiring exactly at the current instant (time 100). -/
def exFoodC4 : Food := { exFood with expires_at := 100 }

/-- Database holding the exactly-now-expiring food. -/
def exDBC4 : DB := ⟨[exRestaurant], [exFoodC4], [], [], [], [], 1, 2⟩

/-- Counterexample to C4 as stated: at time 100 a food whose expiration
timestamp is 100 — not strictly after the current time — is accepted by
`create_order` (the source rejects only `expires_at < now`), not rejected. -/
theorem create_order_expiry_boundary_counterexample :
    exFoodC4.expires_at = (100 : Int) ∧
    (create_order exDBC4 9 ⟨1, 50, [⟨1, 3⟩]⟩ 100).isOk = true := by
  exact ⟨by decide, by decide⟩

/-- C4 (amended): a line passes the expiry check exactly when its food's
expiration timestamp is at or after the current time, so a request succeeds
only if every line's food satisfies `now ≤ expires_at` (contrapositive: any
line whose food expired strictly before `now` makes the request fail); a
food expiring exactly at the current instant is accepted. -/
theorem create_order_accepts_only_unexpired (db : DB) (customer_id : Nat) (req : OrderCreate)
    (now : Int) (db' : DB) (o : Order)
    (h : create_order db customer_id req now = .ok (db', o)) :
    ∀ it ∈ req.items, ∃ f, db.foods.find? (fun x => x.id = it.food_id) = some f ∧
      now ≤ f.expires_at := by
  unfold create_order at h
  cases hr : db.restaurants.find? (fun r => r.id = req.restaurant_id) with
  | none => rw [hr] at h; exact absurd h (by simp)
  | some r =>
    rw [hr] at h
    simp only [] at h
    cases hp : processItems req.restaurant_id now req.items db.foods 0 [] with
    | error e => rw [hp] at h; exact absurd h (by simp)
    | ok v =>
      obtain ⟨foods', total', acc'⟩ := v
      exact processItems_ok_expiry _ _ _ _ _ _ _ _ _ hp

/-- Witness for C4 (amended): in the success scenario at time 100, the
ordered food (line ⟨1, 3⟩) is found and satisfies `100 ≤ expires_at`
(here 200). -/
theorem create_order_accepts_only_unexpired_witness :
    ∃ f, exDB.foods.find?
        (fun x => x.id = (⟨1, 3⟩ : OrderItemCreate).food_id) = some f ∧
      (100 : Int) ≤ f.expires_at :=
  create_order_accepts_only_unexpired exDB 9 ⟨1, 50, [⟨1, 3⟩]⟩ 100 exDBC2 exOrderC2
    (by
    simp [create_order, processItems, updateFoodQty, exDB, exFood, exRestaurant, exDBC2,
      exOrderC2]
    norm_num) ⟨1, 3⟩ (by decide)

/-! ### C5 -/

/-- C5: for an existing order and a user owning the order's restaurant, the
status update accepts any new status whatever the prior status (no
transition-legality check, so e.g. resetting a COMPLETED order is accepted);
setting COMPLETED stamps `completed_at` with the current time, any other
status leaves `completed_at` unchanged. -/
theorem update_order_status_unrestricted (db : DB) (uid oid : Nat) (st : OrderStatus)
    (now : Int) (o : Order) (r : Restaurant)
    (ho : db.orders.find? (fun x => x.id = oid) = some o)
    (hr : db.restaurants.find?
      (fun x => x.owner_id = uid ∧ x.id = o.restaurant_id) = some r) :
    ∃ db', update_order_status db uid oid st now = .ok (db', withStatus o st now) ∧
      (withStatus o st now).status = st ∧
      (withStatus o st now).completed_at =
        (if st = OrderStatus.completed then some now else o.completed_at) := by
  unfold update_order_status
  simp only [ho, hr]
  exact ⟨_, rfl, rfl, rfl⟩

/-- The order used by the C5 witness: already COMPLETED at time 90. -/
def exOrderC5 : Order := ⟨1, 9, 1, .completed, 1500, 50, some 90⟩

/-- Database with the completed order, owned by user 5's restaurant. -/
def exDBC5 : DB := ⟨[exRestaurant], [], [exOrderC5], [], [], [], 2, 2⟩

/-- Witness for C5: the restaurant owner moves an already-COMPLETED order
back to CONFIRMED — accepted, and `completed_at` keeps its old stamp. -/
theorem update_order_status_unrestricted_witness :
    ∃ db', update_order_status exDBC5 5 1 OrderStatus.confirmed 100 =
      .ok (db', withStatus exOrderC5 OrderStatus.confirmed 100) ∧
      (withStatus exOrderC5 OrderStatus.confirmed 100).status = OrderStatus.confirmed ∧
      (withStatus exOrderC5 OrderStatus.confirmed 100).completed_at =
        (if OrderStatus.confirmed = OrderStatus.completed then some 100
          else exOrderC5.completed_at) :=
  update_order_status_unrestricted exDBC5 5 1 OrderStatus.confirmed 100 exOrderC5
    exRestaurant rfl rfl

/-! ### C6 -/

/-- Counterexample to C6 as stated: the update handler applies none of the
price checks — updating the 500-price food to price −1 succeeds and stores
−1, where the claim requires the update handler to reject a non-positive
price with a 400. -/
theorem update_food_skips_validation_counterexample :
    update_food exDB 5 1 { price := some (-1) } =
      .ok ({ exDB with foods := [{ exFood with price := -1 }] },
           { exFood with price := -1 }) ∧
    ({ exFood with price := -1 } : Food).price < 0 := by
  exact ⟨rfl, by norm_num [exFood]⟩

/-- C6 (amended): the creation handler enforces the checks — with an owned,
APPROVED restaurant and a provided original price, creation succeeds iff the
expiration is strictly in the future, both prices are strictly positive and
the discounted price is strictly below the original, and any violated check
yields a 400 INVALID_REQUEST; the update handler applies no such validation:
for an existing food of an owned restaurant it always succeeds and stores
exactly the provided values. -/
theorem food_validation_create_only (db : DB) (uid : Nat) (fd : FoodCreate) (now : Int)
    (r : Restaurant) (op : ℚ)
    (hr : db.restaurants.find? (fun x => x.id = fd.restaurant_id ∧ x.owner_id = uid) = some r)
    (happr : r.status = RestaurantStatus.approved)
    (hop : fd.old_price = some op) :
    ((create_food db uid fd now).isOk = true ↔
      (now < fd.expires_at ∧ 0 < fd.price ∧ 0 < op ∧ fd.price < op)) ∧
    (¬(now < fd.expires_at ∧ 0 < fd.price ∧ 0 < op ∧ fd.price < op) →
      ∃ d, create_food db uid fd now = .error (.badRequest d)) ∧
    (∀ (db₂ : DB) (uid₂ fid : Nat) (food : Food) (r₂ : Restaurant) (u : FoodUpdate),
      db₂.foods.find? (fun f => f.id = fid) = some food →
      db₂.restaurants.find?
        (fun x => x.id = food.restaurant_id ∧ x.owner_id = uid₂) = some r₂ →
      update_food db₂ uid₂ fid u =
        .ok ({ db₂ with foods := db₂.foods.map fun g =>
            if g.id = fid then applyFoodUpdate food u else g },
          applyFoodUpdate food u)) := by
  refine ⟨?_, ?_, ?_⟩
  · unfold create_food
    simp only [hr, hop]
    rw [if_neg (show ¬ (r.status ≠ RestaurantStatus.approved) from by simp [happr])]
    split_ifs with h1 h2 h3 h4
    · simp only [Except.isOk, Except.toBool, Bool.false_eq_true, false_iff]
      rintro ⟨a, -, -, -⟩
      omega
    · simp only [Except.isOk, Except.toBool, Bool.false_eq_true, false_iff]
      rintro ⟨-, b, -, -⟩
      linarith
    · simp only [Except.isOk, Except.toBool, Bool.false_eq_true, false_iff]
      rintro ⟨-, -, c, -⟩
      linarith
    · simp only [Except.isOk, Except.toBool, Bool.false_eq_true, false_iff]
      rintro ⟨-, -, -, d⟩
      linarith
    · simp only [Except.isOk, Except.toBool, true_iff]
      exact ⟨by omega, by linarith, by linarith, by linarith⟩
  · intro hn
    unfold create_food
    simp only [hr, hop]
    rw [if_neg (show ¬ (r.status ≠ RestaurantStatus.approved) from by simp [happr])]
    split_ifs with h1 h2 h3 h4
    · exact ⟨_, rfl⟩
    · exact ⟨_, rfl⟩
    · exact ⟨_, rfl⟩
    · exact ⟨_, rfl⟩
    · exact absurd ⟨by omega, by linarith, by linarith, by linarith⟩ hn
  · intro db₂ uid₂ fid food r₂ u hfood hr₂
    unfold update_food
    simp only [hfood, hr₂]

/-- A valid food-creation request for the C6 witness: price 300 below the
original 400, expiring at 200. -/
def exFoodCreate : FoodCreate := ⟨1, "Manty", none, 300, some 400, 5, 200⟩

/-- Witness for C6 (amended): instantiated at the approved example restaurant
(owner 5) with the valid request at time 100. -/
theorem food_validation_create_only_witness :
    ((create_food exDB 5 exFoodCreate 100).isOk = true ↔
      ((100 : Int) < exFoodCreate.expires_at ∧ 0 < exFoodCreate.price ∧ (0 : ℚ) < 400 ∧
        exFoodCreate.price < 400)) ∧
    (¬((100 : Int) < exFoodCreate.expires_at ∧ 0 < exFoodCreate.price ∧ (0 : ℚ) < 400 ∧
        exFoodCreate.price < 400) →
      ∃ d, create_food exDB 5 exFoodCreate 100 = .error (.badRequest d)) ∧
    (∀ (db₂ : DB) (uid₂ fid : Nat) (food : Food) (r₂ : Restaurant) (u : FoodUpdate),
      db₂.foods.find? (fun f => f.id = fid) = some food →
      db₂.restaurants.find?
        (fun x => x.id = food.restaurant_id ∧ x.owner_id = uid₂) = some r₂ →
      update_food db₂ uid₂ fid u =
        .ok ({ db₂ with foods := db₂.foods.map fun g =>
            if g.id = fid then applyFoodUpdate food u else g },
          applyFoodUpdate food u)) :=
  food_validation_create_only exDB 5 exFoodCreate 100 exRestaurant 400 rfl rfl rfl

/-! ### C7 -/

/-- C7: a restaurant's status is terminal once decided: unless it is PENDING,
both the approve and the reject operation fail with a 400 error; from
PENDING, approval sets APPROVED and stamps `approved_at`, and rejection sets
REJECTED and records the supplied reason. -/
theorem restaurant_decision_terminal (db : DB) (rid : Nat) (now : Int) (reason : String)
    (r : Restaurant) (h : db.restaurants.find? (fun x => x.id = rid) = some r) :
    (r.status ≠ RestaurantStatus.pending →
      approve_restaurant db rid now =
        .error (.badRequest "Restaurant is not in pending status") ∧
      reject_restaurant db rid reason =
        .error (.badRequest "Restaurant is not in pending status")) ∧
    (r.status = RestaurantStatus.pending →
      (∃ db', approve_restaurant db rid now =
        .ok (db', { r with status := RestaurantStatus.approved, approved_at := some now })) ∧
      (∃ db', reject_restaurant db rid reason =
        .ok (db', { r with status := RestaurantStatus.rejected, rejection_reason := some reason }))) := by
  constructor
  · intro hs
    constructor
    · unfold approve_restaurant
      simp only [h]
      rw [if_pos hs]
    · unfold reject_restaurant
      simp only [h]
      rw [if_pos hs]
  · intro hs
    constructor
    · unfold approve_restaurant
      simp only [h]
      rw [if_neg (by simp [hs])]
      exact ⟨_, rfl⟩
    · unfold reject_restaurant
      simp only [h]
      rw [if_neg (by simp [hs])]
      exact ⟨_, rfl⟩

/-- A PENDING restaurant for the C7 witness. -/
def exRestaurantC7 : Restaurant := ⟨2, 6, "Dast", "Tole bi 5", .pending, none, none⟩

/-- Database holding only the pending restaurant. -/
def exDBC7 : DB := ⟨[exRestaurantC7], [], [], [], [], [], 1, 1⟩

/-- Witness for C7: instantiated at the pending example restaurant. -/
theorem restaurant_decision_terminal_witness :
    (exRestaurantC7.status ≠ RestaurantStatus.pending →
      approve_restaurant exDBC7 2 100 =
        .error (.badRequest "Restaurant is not in pending status") ∧
      reject_restaurant exDBC7 2 "incomplete documents" =
        .error (.badRequest "Restaurant is not in pending status")) ∧
    (exRestaurantC7.status = RestaurantStatus.pending →
      (∃ db', approve_restaurant exDBC7 2 100 =
        .ok (db', { exRestaurantC7 with status := RestaurantStatus.approved, approved_at := some 100 })) ∧
      (∃ db', reject_restaurant exDBC7 2 "incomplete documents" =
        .ok (db', { exRestaurantC7 with status := RestaurantStatus.rejected, rejection_reason := some "incomplete documents" }))) :=
  restaurant_decision_terminal exDBC7 2 100 "incomplete documents" exRestaurantC7 rfl

/-! ### C8 -/

/-- Sum of a projection over a filtered list, as a sum of guarded terms. -/
theorem sum_map_filter_eq {α : Type} (l : List α) (p : α → Bool) (f : α → Int) :
    ((l.filter p).map f).sum = (l.map fun a => if p a then f a else 0).sum := by
  induction l with
  | nil => rfl
  | cons a t ih =>
    rw [List.filter_cons]
    by_cases h : p a = true <;> simp [h, ih]

/-- The per-customer completed-items total written as a sum over the
customer's COMPLETED orders of the sums of their line quantities (the
specification-side reading of the aggregate). -/
def customerCompletedQuantity (db : DB) (cid : Nat) : Int :=
  ((db.orders.filter fun o =>
      o.customer_id = cid ∧ o.status = OrderStatus.completed).map
    fun o => ((db.order_items.filter fun it => it.order_id = o.id).map
      fun it => it.quantity).sum).sum

/-- Unfolding of the join condition at a cons cell. -/
theorem completedFor_cons (o : Order) (os : List Order) (cid : Nat) (it : OrderItem) :
    completedFor (o :: os) cid it =
      if it.order_id = o.id then
        decide (o.customer_id = cid ∧ o.status = OrderStatus.completed)
      else completedFor os cid it := by
  unfold completedFor
  rw [List.find?_cons]
  by_cases h : o.id = it.order_id
  · simp [h]
  · have h' : ¬ it.order_id = o.id := fun hh => h hh.symm
    simp [h, h']

/-- The join-based aggregate of `get_impact_stats` equals the per-order
aggregate, provided order ids are unique (the table's primary key). -/
theorem joinAgg_eq (cid : Nat) (orders : List Order) (items : List OrderItem)
    (hnd : (orders.map Order.id).Nodup) :
    ((items.filter (completedFor orders cid)).map fun it => it.quantity).sum =
    ((orders.filter fun o =>
        o.customer_id = cid ∧ o.status = OrderStatus.completed).map
      fun o => ((items.filter fun it => it.order_id = o.id).map
        fun it => it.quantity).sum).sum := by
  induction orders with
  | nil =>
    have hempty : items.filter (completedFor [] cid) = [] := by
      rw [List.filter_eq_nil_iff]
      intro it _
      simp [completedFor]
    rw [hempty]
    simp
  | cons o os ih =>
    rw [List.map_cons, List.nodup_cons] at hnd
    obtain ⟨ho, hnd'⟩ := hnd
    have hosnone : ∀ it : OrderItem, it.order_id = o.id →
        completedFor os cid it = false := by
      intro it hit
      unfold completedFor
      have : os.find? (fun x => x.id = it.order_id) = none := by
        rw [List.find?_eq_none]
        intro x hx
        simp only [decide_eq_true_eq]
        intro hxid
        have hmem : x.id ∈ os.map Order.id := List.mem_map_of_mem Order.id hx
        rw [hxid, hit] at hmem
        exact ho hmem
      rw [this]
    rw [sum_map_filter_eq]
    have hpoint : ∀ it ∈ items,
        (if completedFor (o :: os) cid it then it.quantity else 0) =
        (if it.order_id = o.id then
          (if o.customer_id = cid ∧ o.status = OrderStatus.completed then it.quantity else 0)
          else 0) +
        (if completedFor os cid it then it.quantity else 0) := by
      intro it _
      rw [completedFor_cons]
      by_cases hit : it.order_id = o.id
      · rw [hosnone it hit]
        simp [hit]
      · simp [hit]
    rw [List.map_congr_left hpoint, List.sum_map_add]
    rw [List.filter_cons]
    by_cases hg : (o.customer_id = cid ∧ o.status = OrderStatus.completed)
    · have h1 : (items.map fun it => (if it.order_id = o.id then
          (if o.customer_id = cid ∧ o.status = OrderStatus.completed then it.quantity else 0)
          else 0)).sum =
          ((items.filter fun it => it.order_id = o.id).map fun it => it.quantity).sum := by
        rw [sum_map_filter_eq]
        exact congrArg List.sum (List.map_congr_left fun it _ => by
          by_cases hit : it.order_id = o.id <;> simp [hit, hg])
      rw [h1, ← sum_map_filter_eq, ih hnd']
      simp [hg]
    · have h1 : (items.map fun it => (if it.order_id = o.id then
          (if o.customer_id = cid ∧ o.status = OrderStatus.completed then it.quantity else 0)
          else 0)).sum = 0 := by
        have heq : (items.map fun it => (if it.order_id = o.id then
            (if o.customer_id = cid ∧ o.status = OrderStatus.completed then it.quantity else 0)
            else 0)) = items.map fun _ => (0 : Int) :=
          List.map_congr_left fun it _ => by
            by_cases hit : it.order_id = o.id <;> simp [hit, hg]
        rw [heq]
        simp
      rw [h1, ← sum_map_filter_eq, ih hnd']
      simp [hg]

/-- C8 (amended): the impact statistics return `meals_rescued` equal to the
sum of line-item quantities over the customer's COMPLETED orders (0 when
there are none), `co2_saved` equal to that sum times the constant 0.18
rounded to one decimal place, and the fixed goals 30 and 10.0; the handler
reads and mutates nothing. -/
theorem get_impact_stats_spec (db : DB) (cid : Nat)
    (hnd : (db.orders.map Order.id).Nodup) :
    (get_impact_stats db cid).meals_rescued = customerCompletedQuantity db cid ∧
    (get_impact_stats db cid).co2_saved =
      roundTo1 ((customerCompletedQuantity db cid : ℚ) * (18 / 100)) ∧
    (get_impact_stats db cid).meals_goal = 30 ∧
    (get_impact_stats db cid).co2_goal = 10 := by
  have hagg : completedItemsTotal db cid = customerCompletedQuantity db cid :=
    joinAgg_eq cid db.orders db.order_items hnd
  unfold get_impact_stats
  exact ⟨hagg, by rw [hagg], rfl, rfl⟩

/-- Database for the C8 scenarios: customer 9 has one COMPLETED order with a
single line of quantity 1. -/
def exDBC8 : DB :=
  ⟨[exRestaurant], [], [⟨1, 9, 1, .completed, 500, 50, some 60⟩], [⟨1, 1, 1, 500⟩],
   [], [], 2, 2⟩

/-- Witness for C8 (amended): instantiated at the one-completed-order
database, whose order ids are trivially unique. -/
theorem get_impact_stats_spec_witness :
    (get_impact_stats exDBC8 9).meals_rescued = customerCompletedQuantity exDBC8 9 ∧
    (get_impact_stats exDBC8 9).co2_saved =
      roundTo1 ((customerCompletedQuantity exDBC8 9 : ℚ) * (18 / 100)) ∧
    (get_impact_stats exDBC8 9).meals_goal = 30 ∧
    (get_impact_stats exDBC8 9).co2_goal = 10 :=
  get_impact_stats_spec exDBC8 9 (by decide)

/-- Counterexample to C8 as stated: with one COMPLETED order holding a
single line of quantity 1, the handler returns `co2_saved = 0.2` — the
product 1 × 0.18 rounded to one decimal by `round(..., 1)` — and not the
claimed unrounded product 0.18. -/
theorem impact_stats_rounding_counterexample :
    (get_impact_stats exDBC8 9).meals_rescued = 1 ∧
    (get_impact_stats exDBC8 9).co2_saved ≠ (1 : ℚ) * (18 / 100) := by
  constructor
  · rfl
  · show roundTo1 (((1 : Int) : ℚ) * (18 / 100)) ≠ (1 : ℚ) * (18 / 100)
    norm_num [roundTo1, round_eq]

/-! ### C9 -/

theorem mem_of_mem_filterByRestaurant (l : List (Food × Restaurant))
    (rid : Option Nat) (p : Food × Restaurant) (h : p ∈ filterByRestaurant l rid) :
    p ∈ l := by
  unfold filterByRestaurant at h
  match rid with
  | none => exact h
  | some r =>
    simp only [] at h
    by_cases hr : r ≠ 0
    · rw [if_pos hr] at h
      exact (List.mem_filter.mp h).1
    · rw [if_neg hr] at h
      exact h

theorem mem_of_mem_filterBySearch (l : List (Food × Restaurant))
    (s : Option String) (p : Food × Restaurant) (h : p ∈ filterBySearch l s) :
    p ∈ l := by
  unfold filterBySearch at h
  match s with
  | none => exact h
  | some str =>
    simp only [] at h
    by_cases hs : str ≠ ""
    · rw [if_pos hs] at h
      exact (List.mem_filter.mp h).1
    · rw [if_neg hs] at h
      exact h

/-- C9: every row of the public food listing is in stock (`quantity > 0`),
unexpired at query time (`expires_at > now`), and joined to an existing
restaurant whose status is APPROVED, whose name and address the row
carries. -/
theorem get_all_foods_only_available (db : DB) (rid : Option Nat) (s : Option String)
    (lim off : Nat) (now : Int) (f : Food) (rn ra : String)
    (h : (f, rn, ra) ∈ get_all_foods db rid s lim off now) :
    0 < f.quantity ∧ now < f.expires_at ∧
    ∃ r, db.restaurants.find? (fun x => x.id = f.restaurant_id) = some r ∧
      r.status = RestaurantStatus.approved ∧ rn = r.name ∧ ra = r.address := by
  unfold get_all_foods at h
  rw [List.mem_map] at h
  obtain ⟨p, hp, hmap⟩ := h
  have hp3 := List.mem_of_mem_drop (List.mem_of_mem_take hp)
  rw [List.mem_filter] at hp3
  obtain ⟨hp2, hcond⟩ := hp3
  simp only [decide_eq_true_eq, Bool.and_eq_true] at hcond
  obtain ⟨hexp, hqty, happr⟩ := hcond
  have hjoin : p ∈ db.foods.filterMap fun f =>
      (db.restaurants.find? (fun r => r.id = f.restaurant_id)).map fun r => (f, r) :=
    mem_of_mem_filterByRestaurant _ rid p (mem_of_mem_filterBySearch _ s p hp2)
  rw [List.mem_filterMap] at hjoin
  obtain ⟨f₀, _, hsome⟩ := hjoin
  obtain ⟨hf, hrn, hra⟩ : p.1 = f ∧ p.2.name = rn ∧ p.2.address = ra := by
    have h1 := congrArg Prod.fst hmap
    have h2 := congrArg (fun q => q.2.1) hmap
    have h3 := congrArg (fun q => q.2.2) hmap
    exact ⟨h1, h2, h3⟩
  cases hfind : db.restaurants.find? (fun r => r.id = f₀.restaurant_id) with
  | none => rw [hfind] at hsome; simp at hsome
  | some r₀ =>
    rw [hfind] at hsome
    simp only [Option.map_some', Option.some.injEq] at hsome
    have hf₀ : f₀ = p.1 := congrArg Prod.fst hsome
    have hr₀ : r₀ = p.2 := congrArg Prod.snd hsome
    subst hf
    refine ⟨hqty, hexp, p.2, ?_, happr, hrn.symm, hra.symm⟩
    rw [← hf₀, hfind, hr₀]

/-- Database for the C9 witness: one approved restaurant with an available
food, one pending restaurant whose food must not appear. -/
def exDBC9 : DB :=
  ⟨[exRestaurant, exRestaurantC7],
   [exFood, ⟨2, 2, "Kespe", none, 200, some 300, 5, 400⟩], [], [], [], [], 1, 3⟩

/-- Witness for C9: the approved restaurant's food row is in the listing and
the theorem yields its availability facts. -/
theorem get_all_foods_only_available_witness :
    0 < exFood.quantity ∧ (100 : Int) < exFood.expires_at ∧
    ∃ r, exDBC9.restaurants.find? (fun x => x.id = exFood.restaurant_id) = some r ∧
      r.status = RestaurantStatus.approved ∧ "Bereke" = r.name ∧ "Abay 1" = r.address :=
  get_all_foods_only_available exDBC9 none none 50 0 100 exFood "Bereke" "Abay 1"
    (by decide)

/-! ### C10 -/

/-- Whether a (post, user) like row exists (the handler's own lookup). -/
def likedBy (db : DB) (pid uid : Nat) : Bool :=
  (db.post_likes.find? (likePred pid uid)).isSome

theorem mem_eraseP_iff_of_neg {α : Type} {p : α → Bool} {x : α} (hx : ¬ p x = true)
    (l : List α) : x ∈ l.eraseP p ↔ x ∈ l := by
  induction l with
  | nil => simp
  | cons a t ih =>
    by_cases ha : p a = true
    · rw [List.eraseP_cons_of_pos ha, List.mem_cons]
      constructor
      · exact Or.inr
      · rintro (rfl | hm)
        · exact absurd ha hx
        · exact hm
    · rw [List.eraseP_cons_of_neg ha, List.mem_cons, List.mem_cons, ih]

theorem countP_eraseP_le {α : Type} (p q : α → Bool) (l : List α) :
    (l.eraseP p).countP q ≤ l.countP q := by
  induction l with
  | nil => simp
  | cons a t ih =>
    by_cases ha : p a = true
    · rw [List.eraseP_cons_of_pos ha, List.countP_cons]
      omega
    · rw [List.eraseP_cons_of_neg ha, List.countP_cons, List.countP_cons]
      omega

theorem countP_eraseP_find {α : Type} {p : α → Bool} {x : α} (l : List α)
    (h : l.find? p = some x) : (l.eraseP p).countP p = l.countP p - 1 := by
  induction l with
  | nil => simp at h
  | cons a t ih =>
    rw [List.find?_cons] at h
    by_cases ha : p a = true
    · rw [List.eraseP_cons_of_pos ha, List.countP_cons]
      simp [ha]
    · have hfa : p a = false := by simpa using ha
      rw [hfa] at h
      simp only [] at h
      rw [List.eraseP_cons_of_neg ha, List.countP_cons, List.countP_cons, ih h]
      simp only [if_neg ha]
      omega

/-- C10: for an existing post, `toggle_like` is a toggle: with at most one
like per (post, user) pair, it deletes the pair's like when present and
inserts one when absent, the response's `is_liked` flips the prior state,
the at-most-one invariant is preserved, and a second call restores exactly
the original set of likes. -/
theorem toggle_like_toggles (db : DB) (pid uid : Nat) (post : Post)
    (hpost : db.posts.find? (fun p => p.id = pid) = some post)
    (hinv : ∀ p u, db.post_likes.countP (likePred p u) ≤ 1) :
    ∃ db' r1 db'' r2,
      toggle_like db pid uid = .ok (db', r1) ∧
      r1.is_liked = !(likedBy db pid uid) ∧
      (likedBy db pid uid = false →
        db'.post_likes = db.post_likes ++ [(⟨pid, uid⟩ : PostLike)]) ∧
      (likedBy db pid uid = true →
        db'.post_likes = db.post_likes.eraseP (likePred pid uid)) ∧
      (∀ p u, db'.post_likes.countP (likePred p u) ≤ 1) ∧
      toggle_like db' pid uid = .ok (db'', r2) ∧
      (∀ l : PostLike, l ∈ db''.post_likes ↔ l ∈ db.post_likes) := by
  cases hfind : db.post_likes.find? (likePred pid uid) with
  | some x =>
    have hliked : likedBy db pid uid = true := by
      unfold likedBy
      rw [hfind]
      rfl
    have h1 : toggle_like db pid uid = .ok
        ({ db with post_likes := db.post_likes.eraseP (likePred pid uid) },
          ⟨true, false, ((db.post_likes.eraseP (likePred pid uid)).filter
            (fun l : PostLike => l.post_id = pid)).length⟩) := by
      unfold toggle_like
      simp only [hpost, hfind]
    have hxmem := List.mem_of_find?_eq_some hfind
    have hxp := List.find?_some hfind
    have hfind2 : (db.post_likes.eraseP (likePred pid uid)).find?
        (likePred pid uid) = none := by
      rw [List.find?_eq_none]
      intro y hy hpy
      have hcount := countP_eraseP_find db.post_likes hfind
      have hc1 := hinv pid uid
      have hxpos : 0 < db.post_likes.countP (likePred pid uid) :=
        List.countP_pos_iff.mpr ⟨x, hxmem, hxp⟩
      have h0 : (db.post_likes.eraseP (likePred pid uid)).countP (likePred pid uid) = 0 := by
        omega
      exact absurd hpy (List.countP_eq_zero.mp h0 y hy)
    have h2 : toggle_like
        { db with post_likes := db.post_likes.eraseP (likePred pid uid) } pid uid = .ok
        ({ db with post_likes := db.post_likes.eraseP (likePred pid uid) ++ [(⟨pid, uid⟩ : PostLike)] },
          ⟨true, true, ((db.post_likes.eraseP (likePred pid uid) ++ [(⟨pid, uid⟩ : PostLike)]).filter
            (fun l : PostLike => l.post_id = pid)).length⟩) := by
      unfold toggle_like
      simp only [hpost, hfind2]
    refine ⟨_, _, _, _, h1, ?_, ?_, ?_, ?_, h2, ?_⟩
    · rw [hliked]
      rfl
    · intro hcontra
      rw [hliked] at hcontra
      cases hcontra
    · intro _
      rfl
    · intro p u
      exact le_trans (countP_eraseP_le _ _ _) (hinv p u)
    · intro l
      rw [List.mem_append, List.mem_singleton]
      by_cases hl : likePred pid uid l = true
      · have hleq : l = ⟨pid, uid⟩ := by
          cases l with
          | mk a b =>
            simp only [likePred, decide_eq_true_eq] at hl
            obtain ⟨ha, hb⟩ := hl
            rw [ha, hb]
        have hx : x = PostLike.mk pid uid := by
          cases x with
          | mk a b =>
            simp only [likePred, decide_eq_true_eq] at hxp
            obtain ⟨ha, hb⟩ := hxp
            rw [ha, hb]
        constructor
        · intro _
          rw [hleq, ← hx]
          exact hxmem
        · intro _
          exact Or.inr hleq
      · rw [mem_eraseP_iff_of_neg hl]
        constructor
        · rintro (hm | rfl)
          · exact hm
          · exact absurd (by simp [likePred]) hl
        · exact Or.inl
  | none =>
    have hliked : likedBy db pid uid = false := by
      unfold likedBy
      rw [hfind]
      rfl
    have hnotin := List.find?_eq_none.mp hfind
    have h1 : toggle_like db pid uid = .ok
        ({ db with post_likes := db.post_likes ++ [(⟨pid, uid⟩ : PostLike)] },
          ⟨true, true, ((db.post_likes ++ [(⟨pid, uid⟩ : PostLike)]).filter
            (fun l : PostLike => l.post_id = pid)).length⟩) := by
      unfold toggle_like
      simp only [hpost, hfind]
    have hfind2 : (db.post_likes ++ [(⟨pid, uid⟩ : PostLike)]).find? (likePred pid uid) =
        some ⟨pid, uid⟩ := by
      rw [List.find?_append, hfind]
      simp [likePred]
    have herase : (db.post_likes ++ [(⟨pid, uid⟩ : PostLike)]).eraseP (likePred pid uid) =
        db.post_likes := by
      rw [List.eraseP_append_right _ hnotin,
        List.eraseP_cons_of_pos (by simp [likePred])]
      simp
    have h2 : toggle_like { db with post_likes := db.post_likes ++ [(⟨pid, uid⟩ : PostLike)] } pid uid =
        .ok ({ db with post_likes := (db.post_likes ++ [(⟨pid, uid⟩ : PostLike)]).eraseP (likePred pid uid) },
          ⟨true, false, (((db.post_likes ++ [(⟨pid, uid⟩ : PostLike)]).eraseP (likePred pid uid)).filter
            (fun l : PostLike => l.post_id = pid)).length⟩) := by
      unfold toggle_like
      simp only [hpost, hfind2]
    refine ⟨_, _, _, _, h1, ?_, ?_, ?_, ?_, h2, ?_⟩
    · rw [hliked]
      rfl
    · intro _
      rfl
    · intro hcontra
      rw [hliked] at hcontra
      cases hcontra
    · intro p u
      rw [List.countP_append]
      by_cases hpu : p = pid ∧ u = uid
      · obtain ⟨rfl, rfl⟩ := hpu
        have h0 : db.post_likes.countP (likePred p u) = 0 := by
          rw [List.countP_eq_zero]
          exact hnotin
        rw [h0]
        simp [List.countP_cons, likePred]
      · have hx : likePred p u ⟨pid, uid⟩ = false := by
          simp only [likePred, decide_eq_false_iff_not]
          rintro ⟨h1', h2'⟩
          exact hpu ⟨h1'.symm, h2'.symm⟩
        have hcnt1 : ([(⟨pid, uid⟩ : PostLike)]).countP (likePred p u) = 0 := by
          rw [List.countP_cons, List.countP_nil, hx]
          rfl
        rw [hcnt1]
        simpa using hinv p u
    · intro l
      rw [herase]

/-- Database for the C10 witness: post 1 (author 9) already liked by user 9. -/
def exDBC10 : DB := ⟨[], [], [], [], [⟨1, 9⟩], [⟨1, 9⟩], 1, 1⟩

/-- Witness for C10: user 9 toggling their existing like on post 1 removes
it, and toggling again restores the original like set. -/
theorem toggle_like_toggles_witness :
    ∃ db' r1 db'' r2,
      toggle_like exDBC10 1 9 = .ok (db', r1) ∧
      r1.is_liked = !(likedBy exDBC10 1 9) ∧
      (likedBy exDBC10 1 9 = false →
        db'.post_likes = exDBC10.post_likes ++ [(⟨1, 9⟩ : PostLike)]) ∧
      (likedBy exDBC10 1 9 = true →
        db'.post_likes = exDBC10.post_likes.eraseP (likePred 1 9)) ∧
      (∀ p u, db'.post_likes.countP (likePred p u) ≤ 1) ∧
      toggle_like db' 1 9 = .ok (db'', r2) ∧
      (∀ l : PostLike, l ∈ db''.post_likes ↔ l ∈ exDBC10.post_likes) :=
  toggle_like_toggles exDBC10 1 9 ⟨1, 9⟩ rfl (by
    intro p u
    show List.countP (likePred p u) [(⟨1, 9⟩ : PostLike)] ≤ 1
    rw [List.countP_cons, List.countP_nil]
    split_ifs <;> omega)

end Arzaq
